import Mathlib

/-!
Shallow embedding of the core of the `httpclient` Rust library
(request/response data model, sanitizer, recorder, and the Retry, Follow,
Recorder and OAuth2 middlewares), together with theorems settling the
specification claims about it.

Conventions used throughout:
* Rust `String`/`&str` become `String` (ASCII data throughout this
  development); byte sequences become `List Nat` (each entry < 256).
* `serde_json::Value` becomes the inductive `Json` below; the `Object`
  case keeps the ordered entry list of the underlying map.
* Stateful middleware executions are embedded as pure functions over an
  explicit oracle for the downstream `next.run` transport, returning the
  result together with the trace of dispatched requests.
-/

namespace Httpclient

/-! ## JSON values (model of `serde_json::Value`) -/

mutual

/-- Model of `serde_json::Value`. Numbers are modelled as `Int` (the JSON
documents appearing in the claims only involve integers); `obj` carries the
ordered list of entries of the object map, represented by the mutual
`JsonFields` list type so that all recursion stays structural. -/
inductive Json where
  | null : Json
  | bool (b : Bool) : Json
  | num (n : Int) : Json
  | str (s : String) : Json
  | arr (items : JsonItems) : Json
  | obj (fields : JsonFields) : Json

/-- A list of JSON array elements. -/
inductive JsonItems where
  | nil : JsonItems
  | cons (hd : Json) (tl : JsonItems) : JsonItems

/-- The ordered entry list of a JSON object. -/
inductive JsonFields where
  | nil : JsonFields
  | cons (key : String) (val : Json) (tl : JsonFields) : JsonFields

end

mutual

/-- Structural equality of JSON values (`PartialEq for serde_json::Value`). -/
def jsonBeq : Json → Json → Bool
  | .null, .null => true
  | .bool a, .bool b => a == b
  | .num a, .num b => a == b
  | .str a, .str b => a == b
  | .arr a, .arr b => itemsBeq a b
  | .obj a, .obj b => fieldsBeq a b
  | _, _ => false

/-- Structural equality of JSON array element lists. -/
def itemsBeq : JsonItems → JsonItems → Bool
  | .nil, .nil => true
  | .cons a as, .cons b bs => jsonBeq a b && itemsBeq as bs
  | _, _ => false

/-- Structural equality of JSON object entry lists (order-sensitive; the
serde map preserves its entry order, which the recorder keeps stable). -/
def fieldsBeq : JsonFields → JsonFields → Bool
  | .nil, .nil => true
  | .cons k v as, .cons k' v' bs => k == k' && jsonBeq v v' && fieldsBeq as bs
  | _, _ => false

end

/-! ## Sanitizer (`src/sanitize.rs`) -/

/-- `sanitize::SANITIZED_VALUE`: the ten-asterisk replacement token. -/
def SANITIZED_VALUE : String := "**********"

/-- `str::as_lowercase` from `src/sanitize.rs`: ASCII lowercasing of every
character (the `Cow` fast path is semantically the identity).
`Char.toLower` lowers exactly the ASCII uppercase letters, matching
Rust's `char::to_ascii_lowercase`. -/
def asLowercase (s : String) : String := String.mk (s.data.map Char.toLower)

/-- A regex word character, `[A-Za-z0-9_]` (the class `\w` deciding `\b`). -/
def wordChar (c : Char) : Bool := c.isAlphanum || c == '_'

/-- Whether the character at index `i` of `s` exists and is a word char. -/
def charIsWordAt (s : List Char) (i : Nat) : Bool :=
  match s.drop i with
  | [] => false
  | c :: _ => wordChar c

/-- Whether the character just before position `i` is a word character
(`false` at the start of the string). -/
def prevIsWord (s : List Char) (i : Nat) : Bool :=
  match i with
  | 0 => false
  | j + 1 => charIsWordAt s j

/-- Regex word boundary `\b` at position `i` of `s`: exactly one of the two
surrounding characters is a word character. -/
def boundaryAt (s : List Char) (i : Nat) : Bool :=
  prevIsWord s i != charIsWordAt s i

/-- Whether the character at position `i` exists and is `-` or `_`
(the character class `[-_]` of the sanitizer regex). -/
def dashUnderscoreAt (s : List Char) (i : Nat) : Bool :=
  match s.drop i with
  | [] => false
  | c :: _ => c == '-' || c == '_'

/-- The literal word `w` occurs in `s` starting at position `i`. -/
def matchesAt (w s : List Char) (i : Nat) : Bool :=
  w.isPrefixOf (s.drop i)

/-- The trailing `(\b|[-_])` group of the sanitizer regex, at position `j`
(for `is_match` purposes; when the `[-_]` arm consumes a character the rest
of the input is irrelevant). -/
def tailGroupOk (s : List Char) (j : Nat) : Bool :=
  boundaryAt s j || dashUnderscoreAt s j

/-- One alternative `(\b|[-_])w(\b|[-_])` of the sanitizer regex matching at
position `i`: either the leading group matches the empty string at a word
boundary and `w` starts at `i`, or it consumes a `-`/`_` at `i` and `w`
starts at `i + 1`. -/
def armAt (w s : List Char) (i : Nat) : Bool :=
  (boundaryAt s i && matchesAt w s i && tailGroupOk s (i + w.length)) ||
  (dashUnderscoreAt s i && matchesAt w s (i + 1) && tailGroupOk s (i + 1 + w.length))

/-- `regex().is_match` for a single word `w`: the pattern
`(\b|[-_])w(\b|[-_])` matches somewhere in `s`. -/
def regexWordMatch (w s : List Char) : Bool :=
  (List.range (s.length + 1)).any (armAt w s)

/-- The word list of `sanitize::regex()`. -/
def sanitizeWords : List String := ["secret", "key", "pkey", "session", "password"]

/-- `sanitize::should_sanitize`: lowercase the key, accept the four exact
names, otherwise test the alternation regex built from `sanitizeWords`. -/
def should_sanitize (key : String) : Bool :=
  let k := asLowercase key
  k == "authorization" || k == "cookie" || k == "set-cookie" || k == "password" ||
    sanitizeWords.any (fun w => regexWordMatch w.data k.data)

mutual

/-- `sanitize::sanitize_value`: in objects, replace the value of every
sensitive key by the token and recurse elsewhere; recurse into arrays;
leave primitives alone. -/
def sanitizeValue : Json → Json
  | .obj fields => .obj (sanitizeFields fields)
  | .arr items => .arr (sanitizeItems items)
  | v => v

/-- `sanitize_value` on the elements of an array. -/
def sanitizeItems : JsonItems → JsonItems
  | .nil => .nil
  | .cons v rest => .cons (sanitizeValue v) (sanitizeItems rest)

/-- `sanitize_value` on the entries of an object map. -/
def sanitizeFields : JsonFields → JsonFields
  | .nil => .nil
  | .cons k v rest =>
      if should_sanitize k then .cons k (.str SANITIZED_VALUE) (sanitizeFields rest)
      else .cons k (sanitizeValue v) (sanitizeFields rest)

end

/-- `sanitize::sanitize_headers`: replace the value of every header whose
name is sensitive by the token. Headers are modelled as the ordered list of
(name, value) entries of the `HeaderMap`. -/
def sanitizeHeaders (headers : List (String × String)) : List (String × String) :=
  headers.map (fun kv => if should_sanitize kv.1 then (kv.1, SANITIZED_VALUE) else kv)

/-! ## Serialization of JSON values to text (`serde_json::to_string`) -/

/-- UTF-8 encoding of a single character (`str::as_bytes` operates on the
UTF-8 encoding of the string). -/
def charUtf8 (c : Char) : List Nat :=
  let n := c.toNat
  if n < 0x80 then [n]
  else if n < 0x800 then [0xC0 + n / 0x40, 0x80 + n % 0x40]
  else if n < 0x10000 then [0xE0 + n / 0x1000, 0x80 + n / 0x40 % 0x40, 0x80 + n % 0x40]
  else [0xF0 + n / 0x40000, 0x80 + n / 0x1000 % 0x40, 0x80 + n / 0x40 % 0x40, 0x80 + n % 0x40]

/-- The UTF-8 bytes of a string (`str::as_bytes`). -/
def strBytes (s : String) : List Nat := (s.data.map charUtf8).flatten

/-- JSON string-literal escaping as performed by `serde_json`'s compact
serializer: `"` and `\` are backslash-escaped, the named control characters
use their short escapes, other control characters use `\uXXXX`. -/
def escapeChar (c : Char) : String :=
  if c = '"' then "\\\""
  else if c = '\\' then "\\\\"
  else if c = '\x08' then "\\b"
  else if c = '\x09' then "\\t"
  else if c = '\x0a' then "\\n"
  else if c = '\x0c' then "\\f"
  else if c = '\x0d' then "\\r"
  else if c.toNat < 0x20 then
    "\\u00" ++ String.mk [(Nat.digitChar (c.toNat / 16)), (Nat.digitChar (c.toNat % 16))]
  else String.mk [c]

/-- A JSON string literal, quotes included. -/
def jsonStringLit (s : String) : String :=
  "\"" ++ String.join (s.data.map escapeChar) ++ "\""

mutual

/-- `serde_json::to_string`: the compact rendering of a JSON value. -/
def jsonToString : Json → String
  | .null => "null"
  | .bool b => cond b "true" "false"
  | .num n => toString n
  | .str s => jsonStringLit s
  | .arr items => "[" ++ itemsToString items ++ "]"
  | .obj fields => "\x7b" ++ fieldsToString fields ++ "\x7d"

/-- Comma-separated rendering of array elements. -/
def itemsToString : JsonItems → String
  | .nil => ""
  | .cons v .nil => jsonToString v
  | .cons v rest => jsonToString v ++ "," ++ itemsToString rest

/-- Comma-separated rendering of object entries. -/
def fieldsToString : JsonFields → String
  | .nil => ""
  | .cons k v .nil => jsonStringLit k ++ ":" ++ jsonToString v
  | .cons k v rest => jsonStringLit k ++ ":" ++ jsonToString v ++ "," ++ fieldsToString rest

end

/-! ## In-memory bodies (`src/body/memory.rs`) -/

/-- `InMemoryBody`: the four body cases. `bytes` carries the octet list. -/
inductive InMemoryBody where
  | empty : InMemoryBody
  | json (v : Json) : InMemoryBody
  | bytes (b : List Nat) : InMemoryBody
  | text (s : String) : InMemoryBody

/-- `InMemoryBody::is_empty`. -/
def InMemoryBody.isEmptyBody : InMemoryBody → Bool
  | .empty => true
  | .bytes b => b.isEmpty
  | .text s => s.isEmpty
  | .json _ => false

/-- `InMemoryBody::sanitize`: JSON bodies are passed through
`sanitize_value`; all other bodies are untouched. -/
def InMemoryBody.sanitizeBody : InMemoryBody → InMemoryBody
  | .json v => .json (sanitizeValue v)
  | b => b

/-- The byte stream fed to the hasher by `impl Hash for InMemoryBody`
(`src/body/memory.rs:106`): `Empty` writes nothing, `Bytes`/`Text` write
their raw bytes, `Json(Value::String(s))` writes the bytes of `s`, and any
other JSON value writes the bytes of its compact rendering. A streaming
hasher's state depends only on the concatenation of the written chunks, so
the stream is modelled as the concatenated byte list. No variant
discriminant is written. -/
def bodyHashBytes : InMemoryBody → List Nat
  | .empty => []
  | .bytes b => b
  | .text s => strBytes s
  | .json (.str s) => strBytes s
  | .json v => strBytes (jsonToString v)

/-- `PartialEq for InMemoryBody` as used by `Request` equality: same
variant with equal contents; `Bytes` and `Text` never compare equal. -/
def bodyEq : InMemoryBody → InMemoryBody → Bool
  | .empty, .empty => true
  | .text a, .text b => a == b
  | .bytes a, .bytes b => a == b
  | .json a, .json b => jsonBeq a b
  | _, _ => false

/-! ## In-memory requests (`src/request.rs`, `src/request/memory.rs`) -/

/-- `InMemoryRequest`: method, URI and version are modelled as strings
(URL/host parsing is outside the core per the spec); headers are the
ordered entry list of the `HeaderMap`. -/
structure MRequest where
  method : String
  uri : String
  version : String := "HTTP/1.1"
  headers : List (String × String)
  body : InMemoryBody

/-- `InMemoryRequest::sanitize`: sanitize the headers, then the body. -/
def MRequest.sanitize (r : MRequest) : MRequest :=
  { r with headers := sanitizeHeaders r.headers, body := r.body.sanitizeBody }

/-- The stream of bytes fed to the hasher by `impl Hash for
Request<InMemoryBody>`: the method, then the URI (each contributing a byte
stream that is a function of that field alone), then the body as in
`bodyHashBytes`. Headers and version are not hashed. This is the recorder's
fingerprint hash input. -/
def requestHashBytes (r : MRequest) : List Nat :=
  strBytes r.method ++ strBytes r.uri ++ bodyHashBytes r.body

/-- `PartialEq for Request<InMemoryBody>`: method and URI must agree, then
the bodies are compared variant-by-variant. Headers and version are
ignored. This is the recorder's fingerprint equality. -/
def requestEq (a b : MRequest) : Bool :=
  a.method == b.method && a.uri == b.uri && bodyEq a.body b.body

/-! ## Serde for requests and responses
(`src/request.rs`, `src/http.rs`, `src/response/memory.rs`) -/

/-- Insertion into a `BTreeMap<String, String>` modelled as a sorted
association list: an existing entry with the same key is overwritten. -/
def insertSorted (k v : String) : List (String × String) → List (String × String)
  | [] => [(k, v)]
  | (k', v') :: rest =>
      if k < k' then (k, v) :: (k', v') :: rest
      else if k = k' then (k, v) :: rest
      else (k', v') :: insertSorted k v rest

/-- `SortedSerializableHeaders::from(&HeaderMap)` (`src/http.rs`): build the
sorted map, replacing the value of every sensitive header name by the
sanitization token on the way in. -/
def sortedSanitizedHeaders (headers : List (String × String)) : List (String × String) :=
  headers.foldl
    (fun acc kv =>
      insertSorted kv.1 (if should_sanitize kv.1 then SANITIZED_VALUE else kv.2) acc) []

/-- The plain sorted header map built by `serde_response::serialize`
(`src/response/memory.rs`): no sanitization is applied here. -/
def sortedHeaders (headers : List (String × String)) : List (String × String) :=
  headers.foldl (fun acc kv => insertSorted kv.1 kv.2 acc) []

/-- An association list rendered as the entries of a JSON object with
string values. -/
def headersToJson : List (String × String) → JsonFields
  | [] => .nil
  | (k, v) :: rest => .cons k (.str v) (headersToJson rest)

/-- A byte list rendered as a JSON array of numbers (serde's serialization
of `Vec<u8>`). -/
def natsToItems : List Nat → JsonItems
  | [] => .nil
  | n :: rest => .cons (.num n) (natsToItems rest)

/-- `Serialize for InMemoryBody` (untagged): `Empty` renders as `null`,
`Json` as the value itself, `Bytes` as an array of numbers, `Text` as a
string. -/
def serializeBody : InMemoryBody → Json
  | .empty => .null
  | .json v => v
  | .bytes b => .arr (natsToItems b)
  | .text s => .str s

/-- `Deserialize for InMemoryBody` (untagged): the variants are tried in
declaration order `Empty`, `Json`, `Bytes`, `Text`. `Empty` (a unit
variant) accepts exactly `null`; `Json` accepts every remaining value
because `serde_json::Value` deserializes from anything, so the `Bytes` and
`Text` alternatives are unreachable. -/
def deserializeBody : Json → InMemoryBody
  | .null => .empty
  | v => .json v

/-- `Serialize for InMemoryRequest` (`src/request.rs:33`): a map with
`method`, `url`, the sorted (and sanitized) headers, and — only when the
body is non-empty — the untagged body. -/
def serializeRequest (r : MRequest) : Json :=
  .obj (.cons "method" (.str r.method)
    (.cons "url" (.str r.uri)
      (.cons "headers" (.obj (headersToJson (sortedSanitizedHeaders r.headers)))
        (if r.body.isEmptyBody then .nil
         else .cons "body" (serializeBody r.body) .nil))))

/-- Deserialization of a `BTreeMap<String, String>` from a JSON object:
every value must be a string; duplicate keys overwrite. -/
def headersFromJson : JsonFields → Option (List (String × String))
  | .nil => some []
  | .cons k v rest =>
      match v with
      | .str s => (headersFromJson rest).map (fun m => insertSorted k s m)
      | _ => none

/-- The field loop of `InMemoryRequestVisitor::visit_map`
(`src/request.rs:67`): walk the entries in order, filling `method`, `url`,
`body` (also accepted under the legacy key `data`) and `headers`, rejecting
duplicates and ignoring unknown keys. -/
def visitRequestFields (fields : JsonFields) (m u : Option String)
    (h : Option (List (String × String))) (b : Option InMemoryBody) : Option MRequest :=
  match fields with
  | .nil => do
      let method ← m
      let url ← u
      let headers ← h
      pure { method, uri := url, version := "HTTP/1.1", headers, body := b.getD .empty }
  | .cons k v rest =>
      if k = "method" then
        if m.isSome then none
        else match v with
          | .str s => visitRequestFields rest (some s) u h b
          | _ => none
      else if k = "url" then
        if u.isSome then none
        else match v with
          | .str s => visitRequestFields rest m (some s) h b
          | _ => none
      else if k = "body" ∨ k = "data" then
        if b.isSome then none
        else visitRequestFields rest m u h (some (deserializeBody v))
      else if k = "headers" then
        if h.isSome then none
        else match v with
          | .obj hf =>
              match headersFromJson hf with
              | some hs => visitRequestFields rest m u (some hs) b
              | none => none
          | _ => none
      else visitRequestFields rest m u h b

/-- `Deserialize for InMemoryRequest`: the input must be a map; `method`
and `url` parse from their strings (`Method::from_str` / `Uri::from_str`
are modelled as total since URL parsing is outside the core), the version
is `Default::default()`. -/
def deserializeRequest : Json → Option MRequest
  | .obj fields => visitRequestFields fields none none none none
  | _ => none

/-! ## Reflexivity of the structural equalities -/

mutual

theorem jsonBeq_refl : ∀ v : Json, jsonBeq v v = true
  | .null => rfl
  | .bool b => by simp [jsonBeq]
  | .num n => by simp [jsonBeq]
  | .str s => by simp [jsonBeq]
  | .arr items => by simp [jsonBeq, itemsBeq_refl items]
  | .obj fields => by simp [jsonBeq, fieldsBeq_refl fields]

theorem itemsBeq_refl : ∀ l : JsonItems, itemsBeq l l = true
  | .nil => rfl
  | .cons v rest => by simp [itemsBeq, jsonBeq_refl v, itemsBeq_refl rest]

theorem fieldsBeq_refl : ∀ l : JsonFields, fieldsBeq l l = true
  | .nil => rfl
  | .cons k v rest => by simp [fieldsBeq, jsonBeq_refl v, fieldsBeq_refl rest]

end

theorem bodyEq_refl (b : InMemoryBody) : bodyEq b b = true := by
  cases b <;> simp [bodyEq, jsonBeq_refl]

theorem headersFromJson_headersToJson (l : List (String × String)) :
    (headersFromJson (headersToJson l)).isSome = true := by
  induction l with
  | nil => rfl
  | cons kv rest ih =>
      obtain ⟨m, hm⟩ := Option.isSome_iff_exists.mp ih
      simp [headersToJson, headersFromJson, hm]

/-! ## Claim C1: sanitization vs. the recorder fingerprint -/

/-- Whether a body round-trips through the untagged serde representation
(claim C2): exactly the `Empty` body and `Json` bodies other than `null`. -/
def bodyRoundtrips : InMemoryBody → Bool
  | .empty => true
  | .json .null => false
  | .json _ => true
  | _ => false

/-- A request whose JSON body contains a sensitive key. -/
def c1Request : MRequest :=
  { method := "POST", uri := "https://example.com/", headers := []
    body := .json (.obj (.cons "password" (.str "hunter2") .nil)) }

/-- C1 (corrected): sanitization never touches the method or the URI, so
the recorder fingerprint (hash input and equality) of `sanitize(r)` equals
that of `r` whenever body sanitization leaves the body unchanged — always
for `Empty`, `Bytes` and `Text` bodies, and for `Json` bodies in which
`sanitize_value` rewrites nothing. -/
theorem C1_sanitize_preserves_fingerprint (r : MRequest)
    (h : r.body.sanitizeBody = r.body) :
    requestHashBytes r.sanitize = requestHashBytes r ∧
      requestEq r.sanitize r = true := by
  constructor
  · simp [requestHashBytes, MRequest.sanitize, h]
  · simp [requestEq, MRequest.sanitize, h, bodyEq_refl]

/-- Witness for `C1_sanitize_preserves_fingerprint` at a request with a
JSON body free of sensitive keys. -/
theorem C1_sanitize_preserves_fingerprint_witness :
    requestHashBytes (MRequest.sanitize
        { method := "GET", uri := "https://example.com/a", headers := [("authorization", "Bearer abc")]
          body := .json (.obj (.cons "a" (.num 1) .nil)) }) =
      requestHashBytes
        { method := "GET", uri := "https://example.com/a", headers := [("authorization", "Bearer abc")]
          body := .json (.obj (.cons "a" (.num 1) .nil)) } ∧
    requestEq (MRequest.sanitize
        { method := "GET", uri := "https://example.com/a", headers := [("authorization", "Bearer abc")]
          body := .json (.obj (.cons "a" (.num 1) .nil)) })
      { method := "GET", uri := "https://example.com/a", headers := [("authorization", "Bearer abc")]
        body := .json (.obj (.cons "a" (.num 1) .nil)) } = true :=
  C1_sanitize_preserves_fingerprint _ rfl

/-- C1 counterexample: for a request whose body is the JSON object
`{"password": "hunter2"}`, sanitization rewrites the body, so both the
fingerprint hash input and the fingerprint equality change — the claim
`fingerprint(sanitize(r)) = fingerprint(r)` fails for JSON bodies with
sensitive keys. -/
theorem C1_sanitize_fingerprint_counterexample :
    requestHashBytes c1Request.sanitize ≠ requestHashBytes c1Request ∧
      requestEq c1Request.sanitize c1Request = false := by
  constructor
  · decide
  · rfl

/-! ## Claim C2: serialization round-trip -/

/-- A request with a non-empty `Text` body. -/
def c2Request : MRequest :=
  { method := "GET", uri := "http://example.com/", headers := [], body := .text "hello" }

/-- C2 (corrected): `deserialize(serialize(r)) == r` under the data-model
equality holds when the body is `Empty` or a `Json` value other than
`null`. (`Text` and `Bytes` bodies do not round-trip: non-empty ones come
back as `Json`, empty ones as `Empty`, because untagged deserialization
tries `Json` first and empty bodies are omitted from the document.) -/
theorem C2_serialization_roundtrip (r : MRequest)
    (h : bodyRoundtrips r.body = true) :
    ∃ r', deserializeRequest (serializeRequest r) = some r' ∧ requestEq r' r = true := by
  obtain ⟨m, hm⟩ := Option.isSome_iff_exists.mp
    (headersFromJson_headersToJson (sortedSanitizedHeaders r.headers))
  match hb : r.body with
  | .empty =>
      refine ⟨{ method := r.method, uri := r.uri, version := "HTTP/1.1", headers := m
                body := .empty }, ?_, ?_⟩
      · simp [serializeRequest, deserializeRequest, hb, InMemoryBody.isEmptyBody,
          visitRequestFields, hm]
      · simp [requestEq, hb, bodyEq]
  | .json v =>
      have hv : deserializeBody v = .json v := by
        cases v
        · rw [hb] at h; simp [bodyRoundtrips] at h
        all_goals rfl
      refine ⟨{ method := r.method, uri := r.uri, version := "HTTP/1.1", headers := m
                body := .json v }, ?_, ?_⟩
      · simp [serializeRequest, deserializeRequest, hb, InMemoryBody.isEmptyBody,
          visitRequestFields, serializeBody, hv, hm]
      · simp [requestEq, hb, bodyEq, jsonBeq_refl]
  | .bytes b => rw [hb] at h; simp [bodyRoundtrips] at h
  | .text s => rw [hb] at h; simp [bodyRoundtrips] at h

/-- Witness for `C2_serialization_roundtrip` at a request with a JSON
object body. -/
theorem C2_serialization_roundtrip_witness :
    ∃ r', deserializeRequest (serializeRequest
        { method := "POST", uri := "http://example.com/", headers := [("content-type", "application/json")]
          body := .json (.obj (.cons "a" (.num 1) (.cons "b" (.num 2) .nil))) }) = some r' ∧
      requestEq r'
        { method := "POST", uri := "http://example.com/", headers := [("content-type", "application/json")]
          body := .json (.obj (.cons "a" (.num 1) (.cons "b" (.num 2) .nil))) } = true :=
  C2_serialization_roundtrip _ (by decide)

/-- C2 counterexample: a request with body `Text "hello"` deserializes to a
request with body `Json "hello"`, which the data-model equality rejects, so
the round-trip fails for `Text` bodies. -/
theorem C2_roundtrip_counterexample :
    (deserializeRequest (serializeRequest c2Request)).map
        (fun r' => requestEq r' c2Request) = some false ∧
      (deserializeRequest (serializeRequest c2Request)).map
        (fun r' => bodyEq r'.body (.json (.str "hello"))) = some true := by
  constructor <;> rfl

/-! ## Claim C10: body hash collisions -/

/-- C10 (confirmed): the `InMemoryBody` hash writes no variant
discriminant, so `Text s` and `Json (String s)` feed identical byte
streams to the hasher, and `Empty`, `Text ""` and `Bytes []` all feed the
empty stream; the request fingerprint hash therefore cannot distinguish
these body shapes, while the fingerprint equality rejects each pair. -/
theorem C10_body_hash_collisions (s m u : String) (h h' : List (String × String)) :
    bodyHashBytes (.text s) = bodyHashBytes (.json (.str s)) ∧
      bodyHashBytes .empty = bodyHashBytes (.text "") ∧
      bodyHashBytes .empty = bodyHashBytes (.bytes []) ∧
      requestHashBytes { method := m, uri := u, headers := h, body := .text s } =
        requestHashBytes { method := m, uri := u, headers := h', body := .json (.str s) } ∧
      requestEq { method := m, uri := u, headers := h, body := .text s }
        { method := m, uri := u, headers := h', body := .json (.str s) } = false ∧
      requestEq { method := m, uri := u, headers := h, body := .empty }
        { method := m, uri := u, headers := h', body := .text "" } = false ∧
      requestEq { method := m, uri := u, headers := h, body := .empty }
        { method := m, uri := u, headers := h', body := .bytes [] } = false ∧
      requestEq { method := m, uri := u, headers := h, body := .text "" }
        { method := m, uri := u, headers := h', body := .bytes [] } = false := by
  refine ⟨rfl, rfl, rfl, rfl, ?_, ?_, ?_, ?_⟩ <;> simp [requestEq, bodyEq]

/-! ## Error taxonomy (`src/error.rs`) -/

/-- The kind of a `std::io::Error` (only the kinds the middlewares
construct are distinguished). -/
inductive IoErrorKind where
  | notFound : IoErrorKind
  | timedOut : IoErrorKind
  | otherKind : IoErrorKind
deriving Repr, DecidableEq

/-- `ProtocolError`: failures that never carry an HTTP response. -/
inductive ProtocolError where
  | connectionError : ProtocolError
  | utf8Error : ProtocolError
  | jsonError : ProtocolError
  | ioError (kind : IoErrorKind) : ProtocolError
  | tooManyRedirects : ProtocolError
  | tooManyRetries : ProtocolError
deriving Repr, DecidableEq

/-! ## Retry middleware (`src/middleware/mod.rs:76`, claim C4) -/

/-- The parse of a `Retry-After` header value, per `calc_delay`: a decimal
seconds count (`u64::from_str`), an RFC 2822 absolute instant (modelled as
milliseconds since the epoch; date parsing itself is abstracted into the
constructor choice), or a string that parses as neither. -/
inductive RetryAfterValue where
  | seconds (n : Nat) : RetryAfterValue
  | httpDate (instant : Int) : RetryAfterValue
  | malformed : RetryAfterValue
deriving Repr, DecidableEq

/-- The part of a response the Retry middleware inspects: the status code
and the `Retry-After` header (absent, or its parse). -/
structure RetryResponse where
  status : Nat
  retryAfter : Option RetryAfterValue
deriving Repr, DecidableEq

/-- `calc_delay` (`src/middleware/mod.rs:86`), with durations in
milliseconds and `now` the current instant: no header gives `none`; a
decimal count gives that many seconds; an RFC 2822 instant gives the
duration until it, failing (`try_into().ok()` on a negative
`time::Duration`) when the instant is in the past. -/
def calc_delay (now : Int) (res : RetryResponse) : Option Nat :=
  match res.retryAfter with
  | none => none
  | some (.seconds n) => some (1000 * n)
  | some (.httpDate t) =>
      let dur := t - now
      if 0 ≤ dur then some dur.toNat else none
  | some .malformed => none

/-- The `Retry` middleware configuration with its `Default` values. -/
structure RetryConfig where
  max_retries : Nat := 3
  backoff_delay : Nat := 2000
  retry_codes : List Nat := [408, 429, 425, 503]
deriving Repr, DecidableEq

/-- One downstream outcome for the Retry loop. -/
inductive RetryOutcome where
  | transportErr : RetryOutcome
  | success (res : RetryResponse) : RetryOutcome

/-- The overall outcome of `Retry::handle`. -/
inductive RetryResult where
  | tooManyRetries : RetryResult
  | transportErr : RetryResult
  | done (res : RetryResponse) : RetryResult
deriving Repr, DecidableEq

/-- The loop of `Retry::handle` (`src/middleware/mod.rs:135`): `remaining`
counts the attempts still allowed (starting at `max_retries`), `k` indexes
the transport oracle, `delay` is the current back-off value. Each retried
attempt computes the next delay — the `calc_delay` hint if any, otherwise
double the current value — records it as a sleep, and loops; a status
outside `retry_codes` returns the response; a transport error is returned
unretried. Returns the result and the list of sleeps performed. -/
def retryGo (cfg : RetryConfig) (oracle : Nat → RetryOutcome) (now : Int) :
    Nat → Nat → Nat → RetryResult × List Nat
  | 0, _, _ => (.tooManyRetries, [])
  | remaining + 1, k, delay =>
      match oracle k with
      | .transportErr => (.transportErr, [])
      | .success res =>
          if cfg.retry_codes.contains res.status then
            let delay' :=
              match calc_delay now res with
              | some d => d
              | none => delay * 2
            let rest := retryGo cfg oracle now remaining (k + 1) delay'
            (rest.1, delay' :: rest.2)
          else (.done res, [])

/-- `Retry::handle`: the loop starts with the hard-coded initial delay of
100 ms (`Duration::from_millis(100)`); the configured `backoff_delay` is
never consulted. -/
def retryHandle (cfg : RetryConfig) (oracle : Nat → RetryOutcome) (now : Int) :
    RetryResult × List Nat :=
  retryGo cfg oracle now cfg.max_retries 0 100

/-- A transport that always answers 503 with no `Retry-After` header. -/
def c4Oracle : Nat → RetryOutcome := fun _ => .success { status := 503, retryAfter := none }

/-- C4 (code bug): with the default configuration (`backoff_delay` 2 s)
and a server that always answers 503 without a `Retry-After` hint, the
sleeps are 200 ms, 400 ms, 800 ms — the hard-coded 100 ms initial delay
doubled each time. The configured `backoff_delay` of 2000 ms is never
used, contradicting its own documentation ("Set the back-off delay between
retries, if the server doesn't specify a delay"). -/
theorem C4_backoff_delay_unused :
    retryHandle {} c4Oracle 0 = (.tooManyRetries, [200, 400, 800]) ∧
      RetryConfig.backoff_delay {} = 2000 ∧
      ¬ (200 ∈ [RetryConfig.backoff_delay {}, 2 * RetryConfig.backoff_delay {}]) := by
  refine ⟨rfl, rfl, by decide⟩

/-! ## Follow middleware (`src/middleware/mod.rs:226`, claims C5, C6) -/

/-- `http::Uri` as the Follow middleware manipulates it: optional scheme,
optional authority, and the path-and-query rendered as a string (URI
parsing is outside the core). -/
structure FUri where
  scheme : Option String
  authority : Option String
  path : String
deriving Repr, DecidableEq

/-- `fix_url` (`src/middleware/mod.rs:231`): take the redirect URL's parts
and fill a missing authority or scheme from the original URI. The
`Uri::from_str` parse of the `Location` value is modelled by the redirect
already being a `FUri`. -/
def fix_url (original redirect : FUri) : FUri :=
  { scheme :=
      match redirect.scheme with
      | some s => some s
      | none => original.scheme
    authority :=
      match redirect.authority with
      | some a => some a
      | none => original.authority
    path := redirect.path }

/-- The request data the Follow middleware carries: method, headers and
body are kept verbatim; only the URI is rewritten between attempts. -/
structure FollowRequest where
  method : String
  headers : List (String × String)
  body : InMemoryBody
  uri : FUri

/-- The part of a response the Follow middleware inspects: status and the
(parsed) `Location` header, `none` when the header is absent. -/
structure FollowResponse where
  status : Nat
  location : Option FUri
deriving Repr, DecidableEq

/-- `StatusCode::is_redirection`: 300..=399. -/
def isRedirection (status : Nat) : Bool := 300 ≤ status && status ≤ 399

/-- One downstream outcome for the Follow loop. -/
inductive FollowOutcome where
  | err (e : ProtocolError) : FollowOutcome
  | success (res : FollowResponse) : FollowOutcome

/-- The outcome of `Follow::handle`. `panicked` models the `.expect(...)`
that fires when a redirect response has no `Location` header. -/
inductive FollowResult where
  | ok (res : FollowResponse) : FollowResult
  | protoErr (e : ProtocolError) : FollowResult
  | panicked : FollowResult
deriving Repr, DecidableEq

/-- Whether a `FollowResult` is a protocol error. -/
def FollowResult.isProtoErr : FollowResult → Bool
  | .protoErr _ => true
  | _ => false

/-- Whether a `FollowResult` is a successful response. -/
def FollowResult.isOkResult : FollowResult → Bool
  | .ok _ => true
  | _ => false

/-- The `while` loop of `Follow::handle` (`src/middleware/mod.rs:245`).
`request` is the argument of `handle`: the `let mut request` inside the
Rust loop body is a fresh, block-scoped shadow, so every iteration calls
`fix_url(request.uri(), redirect)` on the handle argument's URI and clones
the handle argument — not the previous request of the chain. `allowed`
starts at 10; a missing `Location` on a redirect response panics. Returns
the result and the trace of dispatched requests. -/
def followLoop (oracle : Nat → FollowOutcome) (request : FollowRequest) :
    Nat → FollowResponse → Nat → FollowResult × List FollowRequest
  | _, res, 0 =>
      if isRedirection res.status then (.protoErr .tooManyRedirects, [])
      else (.ok res, [])
  | k, res, allowed + 1 =>
      if isRedirection res.status then
        match res.location with
        | none => (.panicked, [])
        | some loc =>
            let req' := { request with uri := fix_url request.uri loc }
            match oracle k with
            | .err e => (.protoErr e, [req'])
            | .success res' =>
                let rest := followLoop oracle request (k + 1) res' allowed
                (rest.1, req' :: rest.2)
      else (.ok res, [])

/-- `Follow::handle`: dispatch the request once, then run the redirect
loop with an allowance of 10 further redirects. -/
def followHandle (oracle : Nat → FollowOutcome) (request : FollowRequest) :
    FollowResult × List FollowRequest :=
  match oracle 0 with
  | .err e => (.protoErr e, [request])
  | .success res =>
      let rest := followLoop oracle request 1 res 10
      (rest.1, request :: rest.2)

theorem followLoop_trace (oracle : Nat → FollowOutcome) (req : FollowRequest) :
    ∀ (allowed k : Nat) (res : FollowResponse) (r' : FollowRequest),
      r' ∈ (followLoop oracle req k res allowed).2 →
      r'.method = req.method ∧ r'.headers = req.headers ∧ r'.body = req.body ∧
        ∃ loc, r'.uri = fix_url req.uri loc := by
  intro allowed
  induction allowed with
  | zero =>
      intro k res r' hmem
      cases hred : isRedirection res.status <;> simp [followLoop, hred] at hmem
  | succ a ih =>
      intro k res r' hmem
      cases hred : isRedirection res.status
      · simp [followLoop, hred] at hmem
      · cases hloc : res.location with
        | none => simp [followLoop, hred, hloc] at hmem
        | some loc =>
            cases horc : oracle k with
            | err e =>
                simp [followLoop, hred, hloc, horc] at hmem
                subst hmem
                exact ⟨rfl, rfl, rfl, loc, rfl⟩
            | success res' =>
                simp [followLoop, hred, hloc, horc] at hmem
                rcases hmem with hmem | hmem
                · subst hmem
                  exact ⟨rfl, rfl, rfl, loc, rfl⟩
                · exact ih (k + 1) res' r' hmem

/-- C5 (corrected): every request dispatched by `Follow::handle` keeps the
method, headers and body of the handle's argument, and every replayed
request's URI is the `Location` merged against the URI of that ORIGINAL
request — not the previous request in the chain (the `let mut request`
inside the loop is a block-scoped shadow). `fix_url` itself inherits each
of scheme and authority from its first argument exactly when the redirect
lacks it, and always takes the redirect's path. -/
theorem C5_redirects_merge_into_original_uri (oracle : Nat → FollowOutcome)
    (req : FollowRequest) :
    (∀ r' ∈ (followHandle oracle req).2,
        r'.method = req.method ∧ r'.headers = req.headers ∧ r'.body = req.body ∧
          (r' = req ∨ ∃ loc, r'.uri = fix_url req.uri loc)) ∧
    (∀ o red : FUri,
        (red.scheme = none → (fix_url o red).scheme = o.scheme) ∧
        (∀ s, red.scheme = some s → (fix_url o red).scheme = some s) ∧
        (red.authority = none → (fix_url o red).authority = o.authority) ∧
        (∀ a, red.authority = some a → (fix_url o red).authority = some a) ∧
        (fix_url o red).path = red.path) := by
  constructor
  · intro r' hmem
    cases horc : oracle 0 with
    | err e =>
        simp [followHandle, horc] at hmem
        subst hmem
        exact ⟨rfl, rfl, rfl, Or.inl rfl⟩
    | success res =>
        simp [followHandle, horc] at hmem
        rcases hmem with hmem | hmem
        · subst hmem
          exact ⟨rfl, rfl, rfl, Or.inl rfl⟩
        · obtain ⟨h1, h2, h3, loc, h4⟩ := followLoop_trace oracle req 10 1 res r' hmem
          exact ⟨h1, h2, h3, Or.inr ⟨loc, h4⟩⟩
  · intro o red
    exact ⟨fun h => by simp [fix_url, h], fun s h => by simp [fix_url, h],
      fun h => by simp [fix_url, h], fun a h => by simp [fix_url, h], rfl⟩

/-- Transport for the C5 witness: one relative redirect, then success. -/
def c5wOracle : Nat → FollowOutcome
  | 0 => .success { status := 302, location := some { scheme := none, authority := none, path := "/next" } }
  | _ => .success { status := 200, location := none }

/-- Original request for the C5 witness. -/
def c5wReq : FollowRequest :=
  { method := "GET", headers := [("x-trace", "1")], body := .empty
    uri := { scheme := some "https", authority := some "a.test", path := "/start" } }

/-- The single replayed request of the C5 witness run. -/
def c5wHop : FollowRequest :=
  { method := "GET", headers := [("x-trace", "1")], body := .empty
    uri := { scheme := some "https", authority := some "a.test", path := "/next" } }

/-- Witness for `C5_redirects_merge_into_original_uri`: the replayed
request of a concrete single-redirect run. -/
theorem C5_redirects_merge_into_original_uri_witness :
    c5wHop.method = c5wReq.method ∧ c5wHop.headers = c5wReq.headers ∧
      c5wHop.body = c5wReq.body ∧
      (c5wHop = c5wReq ∨ ∃ loc, c5wHop.uri = fix_url c5wReq.uri loc) :=
  (C5_redirects_merge_into_original_uri c5wOracle c5wReq).1 c5wHop
    (List.mem_cons_of_mem _ (List.mem_cons_self _ _))

/-- Transport for the C5 counterexample: an absolute redirect to another
authority, then a relative redirect, then success. -/
def c5cxOracle : Nat → FollowOutcome
  | 0 => .success { status := 302, location := some { scheme := some "https", authority := some "b.test", path := "/2" } }
  | 1 => .success { status := 302, location := some { scheme := none, authority := none, path := "/3" } }
  | _ => .success { status := 200, location := none }

/-- Original request of the C5 counterexample run. -/
def c5cxReq : FollowRequest :=
  { method := "GET", headers := [], body := .empty
    uri := { scheme := some "https", authority := some "a.test", path := "/1" } }

/-- First replay of the C5 counterexample run: the absolute redirect. -/
def c5cxHop1 : FollowRequest :=
  { method := "GET", headers := [], body := .empty
    uri := { scheme := some "https", authority := some "b.test", path := "/2" } }

/-- Second replay of the C5 counterexample run: the relative `Location /3`
is merged against the ORIGINAL URI `https://a.test/1`. -/
def c5cxHop2 : FollowRequest :=
  { method := "GET", headers := [], body := .empty
    uri := { scheme := some "https", authority := some "a.test", path := "/3" } }

/-- C5 counterexample: in a chain `https://a.test/1 → https://b.test/2 →
Location /3`, the code dispatches `https://a.test/3`, while merging against
the previous request of the chain (as the claim states) would give
`https://b.test/3`. -/
theorem C5_previous_request_counterexample :
    (followHandle c5cxOracle c5cxReq).2 = [c5cxReq, c5cxHop1, c5cxHop2] ∧
      fix_url c5cxHop1.uri { scheme := none, authority := none, path := "/3" } =
        { scheme := some "https", authority := some "b.test", path := "/3" } ∧
      c5cxHop2.uri ≠ fix_url c5cxHop1.uri { scheme := none, authority := none, path := "/3" } := by
  refine ⟨rfl, rfl, by decide⟩

/-- C6 (corrected): a 3xx response with no `Location` header makes
`Follow::handle` PANIC (the `.expect` in the loop), rather than return a
protocol error: shown for the response to the initial dispatch and for
any redirect response reached while the redirect allowance is not yet
exhausted. -/
theorem C6_missing_location_panics (oracle : Nat → FollowOutcome) (req : FollowRequest)
    (res : FollowResponse) (h0 : oracle 0 = .success res)
    (hred : isRedirection res.status = true) (hloc : res.location = none) :
    (followHandle oracle req).1 = .panicked ∧
      ∀ (k a : Nat) (res' : FollowResponse), isRedirection res'.status = true →
        res'.location = none → (followLoop oracle req k res' (a + 1)).1 = .panicked := by
  constructor
  · simp [followHandle, h0, followLoop, hred, hloc]
  · intro k a res' h1 h2
    simp [followLoop, h1, h2]

/-- Transport for the C6 run: always a 302 without `Location`. -/
def c6Oracle : Nat → FollowOutcome := fun _ => .success { status := 302, location := none }

/-- Request for the C6 run. -/
def c6Req : FollowRequest :=
  { method := "GET", headers := [], body := .empty
    uri := { scheme := some "https", authority := some "a.test", path := "/" } }

/-- Witness for `C6_missing_location_panics` at the concrete run. -/
theorem C6_missing_location_panics_witness :
    (followHandle c6Oracle c6Req).1 = .panicked :=
  (C6_missing_location_panics c6Oracle c6Req { status := 302, location := none } rfl rfl rfl).1

/-- C6 counterexample: on a 302 without `Location`, the handler's outcome
is the panic — not a protocol error and not a successful response, so the
claim "returns a protocol error ... does not panic" fails. -/
theorem C6_protocol_error_counterexample :
    (followHandle c6Oracle c6Req).1 = .panicked ∧
      FollowResult.isProtoErr (followHandle c6Oracle c6Req).1 = false ∧
      FollowResult.isOkResult (followHandle c6Oracle c6Req).1 = false :=
  ⟨rfl, rfl, rfl⟩

/-! ## Responses and the recorder store
(`src/response/memory.rs`, `src/recorder.rs`) -/

/-- `InMemoryResponse`: status, headers and body (the version field plays
no role in the recorder paths and is not serialized). -/
structure MResponse where
  status : Nat
  headers : List (String × String)
  body : InMemoryBody

/-- `InMemoryResponseExt::sanitize` (`src/response/memory.rs:44`), also
the missing free function `sanitize_response` used by the recorder:
sanitize the headers, then the body. -/
def MResponse.sanitize (r : MResponse) : MResponse :=
  { r with headers := sanitizeHeaders r.headers, body := r.body.sanitizeBody }

/-- `Error` (`src/error.rs`): a protocol failure or a completed 4xx/5xx
HTTP exchange. -/
inductive MError where
  | protocol (e : ProtocolError) : MError
  | httpError (res : MResponse) : MError

/-- `serde_response::serialize` (`src/response/memory.rs:69`): status,
the sorted (unsanitized) header map, and the body — the body field is
always written, even when empty. -/
def serializeResponse (r : MResponse) : Json :=
  .obj (.cons "status" (.num r.status)
    (.cons "headers" (.obj (headersToJson (sortedHeaders r.headers)))
      (.cons "body" (serializeBody r.body) .nil)))

/-- The serialization of a `RequestResponsePair` (`src/recorder.rs:16`). -/
def serializePair (req : MRequest) (resp : MResponse) : Json :=
  .obj (.cons "request" (serializeRequest req)
    (.cons "response" (serializeResponse resp) .nil))

/-- `IndexMap::get` on the recorder store, keyed by `HashableRequest`
equality (the fingerprint equality `requestEq`). The store is modelled as
the insertion-ordered entry list of the map. -/
def storeGet : List (MRequest × MResponse) → MRequest → Option MResponse
  | [], _ => none
  | (k, v) :: rest, req => if requestEq k req then some v else storeGet rest req

/-- `IndexMap::insert_full`: replace the value of an existing
fingerprint-equal key in place, else append a new entry. -/
def storeInsert : List (MRequest × MResponse) → MRequest → MResponse →
    List (MRequest × MResponse)
  | [], req, resp => [(req, resp)]
  | (k, v) :: rest, req, resp =>
      if requestEq k req then (k, resp) :: rest
      else (k, v) :: storeInsert rest req resp

/-- `RequestRecorder::record_response` (`src/recorder.rs:144`): sanitize
the request and the response in place, serialize the sanitized pair (this
is the JSON document written to disk), and insert the sanitized pair into
the in-memory map. Returns the new map and the document. The free
functions `sanitize_request`/`sanitize_response` it calls are the
`sanitize` methods of `src/request/memory.rs` and
`src/response/memory.rs`. -/
def record_response (store : List (MRequest × MResponse)) (req : MRequest)
    (resp : MResponse) : List (MRequest × MResponse) × Json :=
  let sreq := req.sanitize
  let sresp := resp.sanitize
  (storeInsert store sreq sresp, serializePair sreq sresp)

/-! ## Recorder middleware (`src/middleware/recorder.rs`, claim C7) -/

/-- `RecorderMode` with its three modes. -/
inductive RecorderMode where
  | recordOrRequest : RecorderMode
  | ignoreRecordings : RecorderMode
  | forceNoRequests : RecorderMode
deriving Repr, DecidableEq

/-- `RecorderMode::should_lookup`. -/
def RecorderMode.should_lookup : RecorderMode → Bool
  | .recordOrRequest => true
  | .ignoreRecordings => false
  | .forceNoRequests => true

/-- `RecorderMode::should_request`. -/
def RecorderMode.should_request : RecorderMode → Bool
  | .recordOrRequest => true
  | .ignoreRecordings => true
  | .forceNoRequests => false

/-- One downstream outcome for the recorder's `next.run`. -/
inductive NextOutcome where
  | err (e : ProtocolError) : NextOutcome
  | success (res : MResponse) : NextOutcome

/-- `Recorder::handle` (`src/middleware/recorder.rs:148`): when the mode
looks up, a recorded response for the request's fingerprint is returned
directly; otherwise, when the mode forbids requests, fail with
`Error::Protocol(ProtocolError::IoError(NotFound))`; otherwise run `next`,
record the response, and return it. The result is paired with whether
`next` was invoked and with the resulting store
(`response_into_content` is the identity here since bodies are already in
memory). -/
def recorderHandle (mode : RecorderMode) (store : List (MRequest × MResponse))
    (req : MRequest) (next : Unit → NextOutcome) :
    Except MError MResponse × Bool × List (MRequest × MResponse) :=
  let afterLookup : Except MError MResponse × Bool × List (MRequest × MResponse) :=
    if mode.should_request = false then
      (.error (.protocol (.ioError .notFound)), false, store)
    else
      match next () with
      | .err e => (.error (.protocol e), true, store)
      | .success res => (.ok res, true, (record_response store req res).1)
  if mode.should_lookup then
    match storeGet store req with
    | some recorded => (.ok recorded, false, store)
    | none => afterLookup
  else afterLookup

/-- C7 (confirmed): in `ForceNoRequests` mode, a fingerprint hit serves
the recorded response and never invokes `next`; a miss fails with
`Protocol(IoError(NotFound))`, again without invoking `next` (and without
touching the store). -/
theorem C7_force_no_requests (store : List (MRequest × MResponse)) (req : MRequest)
    (next : Unit → NextOutcome) :
    (∀ r, storeGet store req = some r →
        recorderHandle .forceNoRequests store req next = (.ok r, false, store)) ∧
    (storeGet store req = none →
        recorderHandle .forceNoRequests store req next =
          (.error (.protocol (.ioError .notFound)), false, store)) := by
  constructor
  · intro r hr
    simp [recorderHandle, RecorderMode.should_lookup, RecorderMode.should_request, hr]
  · intro hr
    simp [recorderHandle, RecorderMode.should_lookup, RecorderMode.should_request, hr]

/-- A concrete recorded pair for the C7 witness. -/
def c7Req : MRequest :=
  { method := "GET", uri := "https://api.example.com/x?a=1", headers := [], body := .empty }

/-- The recorded response of the C7 witness. -/
def c7Resp : MResponse :=
  { status := 200, headers := [("content-type", "application/json")]
    body := .json (.obj (.cons "ip" (.str "1.2.3.4") .nil)) }

/-- A transport that must never run in `ForceNoRequests` mode. -/
def c7Next : Unit → NextOutcome := fun _ => .success { status := 500, headers := [], body := .empty }

/-- Witness for `C7_force_no_requests`: a hit on a one-entry store and a
miss on the empty store. -/
theorem C7_force_no_requests_witness :
    recorderHandle .forceNoRequests [(c7Req, c7Resp)] c7Req c7Next =
        (.ok c7Resp, false, [(c7Req, c7Resp)]) ∧
      recorderHandle .forceNoRequests [] c7Req c7Next =
        (.error (.protocol (.ioError .notFound)), false, []) :=
  ⟨(C7_force_no_requests [(c7Req, c7Resp)] c7Req c7Next).1 c7Resp
      (by simp [storeGet, requestEq, bodyEq, c7Req]),
    (C7_force_no_requests [] c7Req c7Next).2 rfl⟩

/-! ## Claim C8: sanitized persistence -/

mutual

/-- A JSON value is fully sanitized: every object entry (at any depth)
whose key is sensitive carries exactly the token string as its value. -/
def valueSanitized : Json → Bool
  | .obj fields => fieldsSanitized fields
  | .arr items => itemsSanitized items
  | _ => true

/-- `valueSanitized` over array elements. -/
def itemsSanitized : JsonItems → Bool
  | .nil => true
  | .cons v rest => valueSanitized v && itemsSanitized rest

/-- `valueSanitized` over object entries. -/
def fieldsSanitized : JsonFields → Bool
  | .nil => true
  | .cons k v rest =>
      (if should_sanitize k then jsonBeq v (.str SANITIZED_VALUE) else valueSanitized v) &&
        fieldsSanitized rest

end

/-- A serialized header map is sanitized: every entry with a sensitive
name carries exactly the token string. -/
def headerFieldsSanitized : JsonFields → Bool
  | .nil => true
  | .cons k v rest =>
      (!should_sanitize k || jsonBeq v (.str SANITIZED_VALUE)) && headerFieldsSanitized rest

/-- The serialized request of a recorded pair is sanitized: its header map
is sanitized and its body (when present) is fully sanitized. -/
def requestDocSanitized : Json → Bool
  | .obj (.cons "method" _ (.cons "url" _ (.cons "headers" (.obj hf) rest))) =>
      headerFieldsSanitized hf &&
        (match rest with
          | .nil => true
          | .cons "body" b .nil => valueSanitized b
          | _ => false)
  | _ => false

/-- The serialized response of a recorded pair is sanitized. -/
def responseDocSanitized : Json → Bool
  | .obj (.cons "status" _ (.cons "headers" (.obj hf) (.cons "body" b .nil))) =>
      headerFieldsSanitized hf && valueSanitized b
  | _ => false

/-- The on-disk recording document is sanitized in both halves. -/
def documentSanitized : Json → Bool
  | .obj (.cons "request" rq (.cons "response" rs .nil)) =>
      requestDocSanitized rq && responseDocSanitized rs
  | _ => false

/-- The per-header property of a sanitized header list: a sensitive name
implies the token value. -/
def headerEntrySanitized (kv : String × String) : Bool :=
  !should_sanitize kv.1 || (kv.2 == SANITIZED_VALUE)

mutual

theorem sanitizeValue_sanitized : ∀ v : Json, valueSanitized (sanitizeValue v) = true
  | .null => rfl
  | .bool _ => rfl
  | .num _ => rfl
  | .str _ => rfl
  | .arr items => by simp [sanitizeValue, valueSanitized, sanitizeItems_sanitized items]
  | .obj fields => by simp [sanitizeValue, valueSanitized, sanitizeFields_sanitized fields]

theorem sanitizeItems_sanitized : ∀ l : JsonItems, itemsSanitized (sanitizeItems l) = true
  | .nil => rfl
  | .cons v rest => by
      simp [sanitizeItems, itemsSanitized, sanitizeValue_sanitized v,
        sanitizeItems_sanitized rest]

theorem sanitizeFields_sanitized : ∀ l : JsonFields, fieldsSanitized (sanitizeFields l) = true
  | .nil => rfl
  | .cons k v rest => by
      by_cases hk : should_sanitize k = true
      · simp [sanitizeFields, hk, fieldsSanitized, jsonBeq, sanitizeFields_sanitized rest]
      · simp [sanitizeFields, hk, fieldsSanitized, sanitizeValue_sanitized v,
          sanitizeFields_sanitized rest]

end

theorem natsToItems_sanitized (b : List Nat) : itemsSanitized (natsToItems b) = true := by
  induction b with
  | nil => rfl
  | cons n rest ih => simp [natsToItems, itemsSanitized, valueSanitized, ih]

/-- A sanitized body serializes to a fully sanitized JSON value. -/
theorem serializeBody_sanitized (b : InMemoryBody) :
    valueSanitized (serializeBody b.sanitizeBody) = true := by
  cases b with
  | empty => rfl
  | json v => simpa [InMemoryBody.sanitizeBody, serializeBody] using sanitizeValue_sanitized v
  | bytes bs => simpa [InMemoryBody.sanitizeBody, serializeBody, valueSanitized]
      using natsToItems_sanitized bs
  | text s => rfl

theorem insertSorted_all (P : String × String → Bool) (k v : String) :
    ∀ l : List (String × String), P (k, v) = true → l.all P = true →
      (insertSorted k v l).all P = true := by
  intro l
  induction l with
  | nil => intro h _; simp [insertSorted, h]
  | cons kv rest ih =>
      intro h hall
      simp only [List.all_cons, Bool.and_eq_true] at hall
      by_cases h1 : k < kv.1
      · simp [insertSorted, h1, h, hall.1, hall.2]
      · by_cases h2 : k = kv.1
        · rw [h2] at h
          simp [insertSorted, h1, h2, h, hall.2]
        · simp [insertSorted, h1, h2, hall.1, ih h hall.2]

/-- Every entry produced by the sanitizing serializer of request headers
satisfies the sensitive-implies-token property. -/
theorem sortedSanitizedHeaders_all (hs : List (String × String)) :
    (sortedSanitizedHeaders hs).all headerEntrySanitized = true := by
  suffices h : ∀ acc : List (String × String), acc.all headerEntrySanitized = true →
      (hs.foldl (fun acc kv =>
        insertSorted kv.1 (if should_sanitize kv.1 then SANITIZED_VALUE else kv.2) acc) acc).all
        headerEntrySanitized = true from h [] rfl
  induction hs with
  | nil => intro acc hacc; simpa using hacc
  | cons kv rest ih =>
      intro acc hacc
      refine ih _ (insertSorted_all _ _ _ acc ?_ hacc)
      by_cases hk : should_sanitize kv.1 = true <;>
        simp [headerEntrySanitized, hk]

theorem foldl_insertSorted_all (P : String × String → Bool) :
    ∀ hs acc : List (String × String), acc.all P = true → hs.all P = true →
      (hs.foldl (fun acc kv => insertSorted kv.1 kv.2 acc) acc).all P = true := by
  intro hs
  induction hs with
  | nil => intro acc hacc _; simpa using hacc
  | cons kv rest ih =>
      intro acc hacc hall
      simp only [List.all_cons, Bool.and_eq_true] at hall
      exact ih (insertSorted kv.1 kv.2 acc)
        (insertSorted_all P kv.1 kv.2 acc hall.1 hacc) hall.2

/-- The plain sorted serializer preserves the per-entry property. -/
theorem sortedHeaders_all (P : String × String → Bool) (hs : List (String × String))
    (h : hs.all P = true) : (sortedHeaders hs).all P = true :=
  foldl_insertSorted_all P hs [] rfl h

/-- Sanitized headers satisfy the per-entry property. -/
theorem sanitizeHeaders_all (hs : List (String × String)) :
    (sanitizeHeaders hs).all headerEntrySanitized = true := by
  rw [sanitizeHeaders, List.all_map]
  refine List.all_eq_true.mpr ?_
  intro kv _
  by_cases hk : should_sanitize kv.1 = true <;>
    simp [Function.comp, headerEntrySanitized, hk]

/-- An entry list satisfying the per-entry property renders to a sanitized
JSON header map. -/
theorem headersToJson_sanitized (l : List (String × String))
    (h : l.all headerEntrySanitized = true) :
    headerFieldsSanitized (headersToJson l) = true := by
  induction l with
  | nil => rfl
  | cons kv rest ih =>
      simp only [List.all_cons, Bool.and_eq_true] at h
      have hkv := h.1
      simp only [headerEntrySanitized, Bool.or_eq_true, Bool.not_eq_true'] at hkv
      rcases hkv with hkv | hkv
      · simp [headersToJson, headerFieldsSanitized, hkv, ih h.2]
      · simp only [beq_iff_eq] at hkv
        simp [headersToJson, headerFieldsSanitized, hkv, jsonBeq, ih h.2]

/-- The serialization of a sanitized request is a sanitized request
document. -/
theorem serializeRequest_sanitized (req : MRequest) :
    requestDocSanitized (serializeRequest req.sanitize) = true := by
  have hh : headerFieldsSanitized
      (headersToJson (sortedSanitizedHeaders req.sanitize.headers)) = true :=
    headersToJson_sanitized _ (sortedSanitizedHeaders_all _)
  by_cases hb : req.sanitize.body.isEmptyBody = true
  · simp [serializeRequest, hb, requestDocSanitized, hh]
  · have hbs : valueSanitized (serializeBody req.sanitize.body) = true := by
      simpa [MRequest.sanitize] using serializeBody_sanitized req.body
    simp [serializeRequest, hb, requestDocSanitized, hh, hbs]

/-- The serialization of a sanitized response is a sanitized response
document. -/
theorem serializeResponse_sanitized (resp : MResponse) :
    responseDocSanitized (serializeResponse resp.sanitize) = true := by
  have hh : headerFieldsSanitized (headersToJson (sortedHeaders resp.sanitize.headers)) = true :=
    headersToJson_sanitized _
      (sortedHeaders_all _ _ (by simpa [MResponse.sanitize] using sanitizeHeaders_all resp.headers))
  have hbs : valueSanitized (serializeBody resp.sanitize.body) = true := by
    simpa [MResponse.sanitize] using serializeBody_sanitized resp.body
  simp [serializeResponse, responseDocSanitized, hh, hbs]

/-- C8 (confirmed): the JSON document `record_response` writes to disk has
every sensitive header value, in both the request and the response, and
the value of every sensitive JSON key in JSON bodies, equal to the literal
ten-asterisk token; and the in-memory map receives exactly the same
sanitized pair that was serialized. -/
theorem C8_record_response_sanitized (store : List (MRequest × MResponse))
    (req : MRequest) (resp : MResponse) :
    documentSanitized (record_response store req resp).2 = true ∧
      (record_response store req resp).2 = serializePair req.sanitize resp.sanitize ∧
      (record_response store req resp).1 = storeInsert store req.sanitize resp.sanitize := by
  refine ⟨?_, rfl, rfl⟩
  simp [record_response, serializePair, documentSanitized,
    serializeRequest_sanitized req, serializeResponse_sanitized resp]

/-! ## OAuth2 middleware (`src/oauth2/middleware.rs`, claim C9) -/

/-- `TokenType`: the `Bearer` scheme or a custom header name. -/
inductive TokenType where
  | bearer : TokenType
  | other (name : String) : TokenType
deriving Repr, DecidableEq

/-- The configuration and immutable state of the `OAuth2` middleware; the
mutable access-token slot is passed explicitly through `oauthHandle`. -/
structure OAuthConfig where
  refresh_endpoint : String
  client_id : String
  client_secret : String
  token_type : TokenType
  refresh_token : String

/-- `OAuth2::authorize`: insert (overwriting any existing entry) the
authorization header carrying the current access token. -/
def headerInsert (name value : String) : List (String × String) → List (String × String)
  | [] => [(name, value)]
  | (k, v) :: rest =>
      if k == name then (name, value) :: rest else (k, v) :: headerInsert name value rest

/-- `OAuth2::authorize` on a request, with the token read from the slot. -/
def authorize (cfg : OAuthConfig) (token : String) (req : MRequest) : MRequest :=
  match cfg.token_type with
  | .bearer => { req with headers := headerInsert "authorization" ("Bearer " ++ token) req.headers }
  | .other name => { req with headers := headerInsert name token req.headers }

/-- `OAuth2::make_refresh_request`: `POST` to the refresh endpoint with the
url-encoded refresh form (`serde_qs` output for `RefreshRequest`; the
field values are assumed url-safe). -/
def makeRefreshRequest (cfg : OAuthConfig) : MRequest :=
  { method := "POST", uri := cfg.refresh_endpoint
    headers := [("content-type", "application/x-www-form-urlencoded"), ("accept", "html/text")]
    body := .text ("client_id=" ++ cfg.client_id ++ "&client_secret=" ++ cfg.client_secret ++
      "&grant_type=refresh_token&refresh_token=" ++ cfg.refresh_token) }

/-- The parsed refresh payload (`RefreshResponse` / `RefreshData`). -/
structure RefreshData where
  access_token : String
  token_type : TokenType
  expires_in : Nat
  scope : Option String
  refresh_token : Option String
deriving Repr, DecidableEq

/-- Look a key up in a JSON object's entry list. -/
def fieldLookup (key : String) : JsonFields → Option Json
  | .nil => none
  | .cons k v rest => if k == key then some v else fieldLookup key rest

/-- The serde parse of a `TokenType`: the string `Bearer` is the unit
variant, any other string is the untagged `Other`. -/
def parseTokenType : Json → Option TokenType
  | .str s => some (if s == "Bearer" then .bearer else .other s)
  | _ => none

/-- An optional string field: missing gives `none`, a string gives the
string, anything else is a parse error. -/
def optionalStringField (key : String) (fields : JsonFields) : Option (Option String) :=
  match fieldLookup key fields with
  | none => some none
  | some (.str s) => some (some s)
  | some _ => none

/-- `body.json::<RefreshResponse>()`: extract the refresh payload from a
JSON body. (`Text`/`Bytes` bodies would go through the JSON text codec,
which is outside the core; `Empty` is an error in the source too.) -/
def parseRefreshResponse : InMemoryBody → Option RefreshData
  | .json (.obj fields) => do
      let atJson ← fieldLookup "access_token" fields
      let accessToken ← match atJson with | .str s => some s | _ => none
      let eiJson ← fieldLookup "expires_in" fields
      let expiresIn ← match eiJson with
        | .num n => if 0 ≤ n then some n.toNat else none
        | _ => none
      let tokenType ← (fieldLookup "token_type" fields).bind parseTokenType
      let scope ← optionalStringField "scope" fields
      let refreshToken ← optionalStringField "refresh_token" fields
      pure { access_token := accessToken, token_type := tokenType, expires_in := expiresIn
             scope := scope, refresh_token := refreshToken }
  | _ => none

/-- `StatusCode::is_client_error`: 400..=499. -/
def isClientError (status : Nat) : Bool := 400 ≤ status && status ≤ 499

/-- `StatusCode::is_server_error`: 500..=599. -/
def isServerError (status : Nat) : Bool := 500 ≤ status && status ≤ 599

/-- The observable outcome of one `OAuth2::handle` call: the returned
result, the final content of the access-token slot, the trace of requests
dispatched through `next`, and the `RefreshData` passed to the refresh
callback (if it fired). -/
structure OAuthRun where
  result : Except ProtocolError MResponse
  finalToken : String
  dispatched : List MRequest
  callbackData : Option RefreshData

/-- `OAuth2::handle` (`src/oauth2/middleware.rs:86`): authorize and run;
on anything but a 401 return that result; on a 401 send one refresh
request through the same `next`; a 4xx/5xx refresh response is returned
as-is; otherwise parse the payload, store the new access token, fire the
callback, re-authorize the original (already-authorized) request with the
new token and run it once more, returning that second result
unconditionally. -/
def oauthHandle (cfg : OAuthConfig) (token0 : String) (request : MRequest)
    (oracle : Nat → NextOutcome) : OAuthRun :=
  let req := authorize cfg token0 request
  match oracle 0 with
  | .err e => ⟨.error e, token0, [req], none⟩
  | .success res =>
      if res.status ≠ 401 then ⟨.ok res, token0, [req], none⟩
      else
        let rreq := makeRefreshRequest cfg
        match oracle 1 with
        | .err e => ⟨.error e, token0, [req, rreq], none⟩
        | .success rres =>
            if isClientError rres.status || isServerError rres.status then
              ⟨.ok rres, token0, [req, rreq], none⟩
            else
              match parseRefreshResponse rres.body with
              | none => ⟨.error .jsonError, token0, [req, rreq], none⟩
              | some data =>
                  let req2 := authorize cfg data.access_token req
                  match oracle 2 with
                  | .err e => ⟨.error e, data.access_token, [req, rreq, req2], some data⟩
                  | .success res2 => ⟨.ok res2, data.access_token, [req, rreq, req2], some data⟩

/-- C9 (confirmed): when the authorized dispatch yields a 401, exactly one
refresh request goes through the same `next`; a 4xx/5xx refresh response
is returned without replaying the original request and without touching
the token slot; otherwise the slot is replaced by the parsed
`access_token`, the original request is re-authorized with the new token
and run exactly once more, and that second attempt's success response is
returned unconditionally — no second refresh even when it is again a
401. -/
theorem C9_oauth_refresh_protocol (cfg : OAuthConfig) (tok : String) (request : MRequest)
    (oracle : Nat → NextOutcome) (res rres : MResponse)
    (h0 : oracle 0 = .success res) (h401 : res.status = 401)
    (h1 : oracle 1 = .success rres) :
    ((isClientError rres.status || isServerError rres.status) = true →
        oauthHandle cfg tok request oracle =
          ⟨.ok rres, tok, [authorize cfg tok request, makeRefreshRequest cfg], none⟩) ∧
    (∀ data, (isClientError rres.status || isServerError rres.status) = false →
        parseRefreshResponse rres.body = some data →
        ∀ res2, oracle 2 = .success res2 →
          oauthHandle cfg tok request oracle =
            ⟨.ok res2, data.access_token,
              [authorize cfg tok request, makeRefreshRequest cfg,
                authorize cfg data.access_token (authorize cfg tok request)], some data⟩) := by
  constructor
  · intro herr
    simp [oauthHandle, h0, h401, h1, herr]
  · intro data herr hparse res2 h2
    simp [oauthHandle, h0, h401, h1, herr, hparse, h2]

/-- OAuth2 configuration for the C9 witness. -/
def c9Cfg : OAuthConfig :=
  { refresh_endpoint := "https://auth.example.com/token", client_id := "cid"
    client_secret := "cs", token_type := .bearer, refresh_token := "r" }

/-- The original (pre-authorization) request of the C9 witness run. -/
def c9Req : MRequest :=
  { method := "GET", uri := "https://api.example.com/me", headers := [], body := .empty }

/-- The refresh payload the C9 witness server answers with. -/
def c9RefreshBody : InMemoryBody :=
  .json (.obj (.cons "access_token" (.str "new")
    (.cons "token_type" (.str "Bearer")
      (.cons "expires_in" (.num 3600) .nil))))

/-- Transport for the C9 witness: 401, then a successful refresh, then
200. -/
def c9Oracle : Nat → NextOutcome
  | 0 => .success { status := 401, headers := [], body := .empty }
  | 1 => .success { status := 200, headers := [], body := c9RefreshBody }
  | _ => .success { status := 200, headers := [], body := .text "ok" }

/-- Transport for the C9 witness's failing-refresh branch: 401, then a 400
from the refresh endpoint. -/
def c9FailOracle : Nat → NextOutcome
  | 0 => .success { status := 401, headers := [], body := .empty }
  | _ => .success { status := 400, headers := [], body := .empty }

/-- The parsed refresh payload of the C9 witness run. -/
def c9Data : RefreshData :=
  { access_token := "new", token_type := .bearer, expires_in := 3600
    scope := none, refresh_token := none }

/-- Witness for `C9_oauth_refresh_protocol`: both branches at concrete
runs — a failing refresh is surfaced without replay, and a successful one
updates the token to `new`, replays once with `Bearer new` and returns the
replay's response. -/
theorem C9_oauth_refresh_protocol_witness :
    oauthHandle c9Cfg "old" c9Req c9FailOracle =
        ⟨.ok { status := 400, headers := [], body := .empty }, "old",
          [authorize c9Cfg "old" c9Req, makeRefreshRequest c9Cfg], none⟩ ∧
      oauthHandle c9Cfg "old" c9Req c9Oracle =
        ⟨.ok { status := 200, headers := [], body := .text "ok" }, "new",
          [authorize c9Cfg "old" c9Req, makeRefreshRequest c9Cfg,
            authorize c9Cfg "new" (authorize c9Cfg "old" c9Req)], some c9Data⟩ :=
  ⟨(C9_oauth_refresh_protocol c9Cfg "old" c9Req c9FailOracle
      { status := 401, headers := [], body := .empty }
      { status := 400, headers := [], body := .empty } rfl rfl rfl).1 rfl,
    (C9_oauth_refresh_protocol c9Cfg "old" c9Req c9Oracle
      { status := 401, headers := [], body := .empty }
      { status := 200, headers := [], body := c9RefreshBody } rfl rfl rfl).2
      c9Data rfl rfl { status := 200, headers := [], body := .text "ok" } rfl⟩

/-! ## Claim C3: the `should_sanitize` name rule

The claim states the pattern `(^|[-_])(secret|key|pkey|session|password|token)($|[-_])`.
`claimShouldSanitize` transcribes that pattern from the claim's words, to
be compared with the `should_sanitize` embedded from the source (whose
word list has no `token` and whose boundaries are `(\b|[-_])`). -/

/-- The claim's left boundary `(^|[-_])`: start of string or a dash or
underscore just before the occurrence. -/
def claimLeftOk (s : List Char) (i : Nat) : Bool :=
  decide (i = 0) || dashUnderscoreAt s (i - 1)

/-- The claim's right boundary `($|[-_])`. -/
def claimRightOk (s : List Char) (j : Nat) : Bool :=
  decide (j = s.length) || dashUnderscoreAt s j

/-- A match of `(^|[-_])w($|[-_])` somewhere in `s`, per the claim. -/
def claimWordMatch (w s : List Char) : Bool :=
  (List.range (s.length + 1)).any
    (fun i => matchesAt w s i && claimLeftOk s i && claimRightOk s (i + w.length))

/-- The sanitizer rule as the claim words it: the four exact names, or the
pattern with the six-word list including `token`. -/
def claimShouldSanitize (key : String) : Bool :=
  let k := asLowercase key
  k == "authorization" || k == "cookie" || k == "set-cookie" || k == "password" ||
    ["secret", "key", "pkey", "session", "password", "token"].any
      (fun w => claimWordMatch w.data k.data)

/-- C3 counterexample: the claim's rule sanitizes `token` and `api-token`,
but `should_sanitize` does not (`token` is not in the source's word list);
conversely the source sanitizes `my key` (a `\b` boundary at the space),
which the claim's `(^|[-_])` boundary does not. -/
theorem C3_token_counterexample :
    claimShouldSanitize "token" = true ∧ should_sanitize "token" = false ∧
      claimShouldSanitize "api-token" = true ∧ should_sanitize "api-token" = false ∧
      should_sanitize "my key" = true ∧ claimShouldSanitize "my key" = false := by
  refine ⟨by decide, by decide, by decide, by decide, by decide, by decide⟩

/-- The amended left boundary: the occurrence starts at the beginning of
the string or right after a non-alphanumeric character (`\b` fires on any
non-`\w` neighbour, and the explicit `[-_]` arm covers the underscore,
which is a `\w` character). -/
def cleanLeftOk (s : List Char) (i : Nat) : Bool :=
  match i with
  | 0 => true
  | j + 1 =>
      match s.drop j with
      | [] => true
      | c :: _ => !c.isAlphanum

/-- The amended right boundary: end of string or a non-alphanumeric
character right after the occurrence. -/
def cleanRightOk (s : List Char) (j : Nat) : Bool :=
  match s.drop j with
  | [] => true
  | c :: _ => !c.isAlphanum

/-- A word occurrence bounded on each side by the string edge or a
non-alphanumeric character. -/
def cleanWordMatch (w s : List Char) : Bool :=
  (List.range (s.length + 1)).any
    (fun i => matchesAt w s i && cleanLeftOk s i && cleanRightOk s (i + w.length))

/-- The amended sanitizer rule: after ASCII lowercasing, one of the four
exact names, or an occurrence of `secret`, `key`, `pkey`, `session` or
`password` bounded on each side by the string edge or a non-alphanumeric
character. -/
def amendedShouldSanitize (key : String) : Bool :=
  let k := asLowercase key
  k == "authorization" || k == "cookie" || k == "set-cookie" || k == "password" ||
    sanitizeWords.any (fun w => cleanWordMatch w.data k.data)

theorem drop_cons_succ (s : List Char) (i : Nat) (c : Char) (l : List Char)
    (h : s.drop i = c :: l) : s.drop (i + 1) = l := by
  have hd := List.drop_drop 1 i s
  rw [← hd, h]
  rfl

theorem lt_length_of_drop_cons (s : List Char) (i : Nat) (c : Char) (l : List Char)
    (h : s.drop i = c :: l) : i < s.length := by
  rcases Nat.lt_or_ge i s.length with h' | h'
  · exact h'
  · rw [List.drop_eq_nil_iff.mpr h'] at h
    cases h

theorem matchesAt_decomp (w s : List Char) (i : Nat) (h : matchesAt w s i = true) :
    ∃ t, s.drop i = w ++ t := by
  obtain ⟨t, ht⟩ := List.isPrefixOf_iff_prefix.mp h
  exact ⟨t, ht.symm⟩

theorem charIsWordAt_eq (s : List Char) (i : Nat) (c : Char) (l : List Char)
    (h : s.drop i = c :: l) : charIsWordAt s i = wordChar c := by
  simp [charIsWordAt, h]

theorem charIsWordAt_none (s : List Char) (i : Nat) (h : s.drop i = []) :
    charIsWordAt s i = false := by
  simp [charIsWordAt, h]

theorem dashUnderscoreAt_eq (s : List Char) (i : Nat) (c : Char) (l : List Char)
    (h : s.drop i = c :: l) : dashUnderscoreAt s i = (c == '-' || c == '_') := by
  simp [dashUnderscoreAt, h]

theorem wordChar_of_alpha (c : Char) (h : c.isAlpha = true) : wordChar c = true := by
  simp [wordChar, Char.isAlphanum, h]

/-- The character just before the end of an all-letter occurrence is a
word character. -/
theorem prevIsWord_after (s : List Char) :
    ∀ w : List Char, w ≠ [] → (∀ c ∈ w, c.isAlpha = true) →
      ∀ i t, s.drop i = w ++ t → prevIsWord s (i + w.length) = true := by
  intro w
  induction w with
  | nil => intro h; exact absurd rfl h
  | cons c w' ih =>
      intro _ halpha i t hd
      cases w' with
      | nil =>
          have hc : charIsWordAt s i = wordChar c :=
            charIsWordAt_eq s i c t (by simpa using hd)
          show charIsWordAt s i = true
          rw [hc]
          exact wordChar_of_alpha c (halpha c (by simp))
      | cons c2 w'' =>
          have hd' : s.drop (i + 1) = (c2 :: w'') ++ t :=
            drop_cons_succ s i c ((c2 :: w'') ++ t) (by simpa using hd)
          have hrec := ih (by simp) (fun x hx => halpha x (by simp [hx])) (i + 1) t hd'
          have harith : i + 1 + (c2 :: w'').length = i + (c :: c2 :: w'').length := by
            simp [List.length_cons]
            omega
          rwa [harith] at hrec

/-- The head of an all-letter occurrence is a word character. -/
theorem charIsWordAt_head (w s : List Char) (hw : w ≠ [])
    (halpha : ∀ c ∈ w, c.isAlpha = true) (i : Nat) (t : List Char)
    (hd : s.drop i = w ++ t) : charIsWordAt s i = true := by
  obtain ⟨c0, w', rfl⟩ : ∃ c0 w', w = c0 :: w' := by
    cases w with
    | nil => exact absurd rfl hw
    | cons a b => exact ⟨a, b, rfl⟩
  rw [charIsWordAt_eq s i c0 (w' ++ t) (by simpa using hd)]
  exact wordChar_of_alpha c0 (halpha c0 (by simp))

/-- From the trailing regex group to the amended right boundary. -/
theorem cleanRight_of_tail (w s : List Char) (hw : w ≠ [])
    (halpha : ∀ c ∈ w, c.isAlpha = true) (i : Nat) (t : List Char)
    (hd : s.drop i = w ++ t) (htail : tailGroupOk s (i + w.length) = true) :
    cleanRightOk s (i + w.length) = true := by
  have hprev : prevIsWord s (i + w.length) = true := prevIsWord_after s w hw halpha i t hd
  simp only [tailGroupOk, Bool.or_eq_true] at htail
  cases hdj : s.drop (i + w.length) with
  | nil => simp [cleanRightOk, hdj]
  | cons c2 l2 =>
      rcases htail with hb | hdash
      · rw [boundaryAt, hprev, charIsWordAt_eq s _ c2 l2 hdj] at hb
        have hwc : wordChar c2 = false := by
          cases hwc : wordChar c2
          · rfl
          · rw [hwc] at hb; simp at hb
        simp only [wordChar, Bool.or_eq_false_iff] at hwc
        simp [cleanRightOk, hdj, hwc.1]
      · rw [dashUnderscoreAt_eq s _ c2 l2 hdj] at hdash
        have halnum : c2.isAlphanum = false := by
          have hcd : c2 = '-' ∨ c2 = '_' := by simpa using hdash
          rcases hcd with h | h <;> (subst h; decide)
        simp [cleanRightOk, hdj, halnum]

/-- From the amended right boundary to the trailing regex group. -/
theorem tail_of_cleanRight (w s : List Char) (hw : w ≠ [])
    (halpha : ∀ c ∈ w, c.isAlpha = true) (i : Nat) (t : List Char)
    (hd : s.drop i = w ++ t) (hclean : cleanRightOk s (i + w.length) = true) :
    tailGroupOk s (i + w.length) = true := by
  have hprev : prevIsWord s (i + w.length) = true := prevIsWord_after s w hw halpha i t hd
  cases hdj : s.drop (i + w.length) with
  | nil =>
      have hcw : charIsWordAt s (i + w.length) = false := charIsWordAt_none s _ hdj
      simp [tailGroupOk, boundaryAt, hprev, hcw]
  | cons c2 l2 =>
      have halnum : c2.isAlphanum = false := by
        simp only [cleanRightOk, hdj, Bool.not_eq_true'] at hclean
        exact hclean
      by_cases hdu : (c2 == '-' || c2 == '_') = true
      · simp [tailGroupOk, dashUnderscoreAt_eq s _ c2 l2 hdj, hdu]
      · have hwc : wordChar c2 = false := by
          simp only [Bool.or_eq_true, not_or, Bool.not_eq_true] at hdu
          simp [wordChar, halnum, hdu.2]
        simp [tailGroupOk, boundaryAt, hprev, charIsWordAt_eq s _ c2 l2 hdj, hwc]

/-- A match of the regex alternation implies a cleanly-bounded
occurrence. -/
theorem cleanWordMatch_of_regex (w s : List Char) (hw : w ≠ [])
    (halpha : ∀ c ∈ w, c.isAlpha = true) (h : regexWordMatch w s = true) :
    cleanWordMatch w s = true := by
  simp only [regexWordMatch, List.any_eq_true, List.mem_range] at h
  obtain ⟨i, hi, harm⟩ := h
  simp only [armAt, Bool.or_eq_true, Bool.and_eq_true] at harm
  simp only [cleanWordMatch, List.any_eq_true, List.mem_range]
  rcases harm with ⟨⟨hbnd, hmatch⟩, htail⟩ | ⟨⟨hdash, hmatch⟩, htail⟩
  · obtain ⟨t, hd⟩ := matchesAt_decomp w s i hmatch
    have hc0 : charIsWordAt s i = true := charIsWordAt_head w s hw halpha i t hd
    have hprev : prevIsWord s i = false := by
      rw [boundaryAt, hc0] at hbnd
      cases hpv : prevIsWord s i
      · rfl
      · rw [hpv] at hbnd; simp at hbnd
    refine ⟨i, hi, ?_⟩
    simp only [Bool.and_eq_true]
    refine ⟨⟨hmatch, ?_⟩, cleanRight_of_tail w s hw halpha i t hd htail⟩
    cases i with
    | zero => rfl
    | succ j =>
        have hj : charIsWordAt s j = false := hprev
        cases hdj : s.drop j with
        | nil => simp [cleanLeftOk, hdj]
        | cons c' l' =>
            have hwc : wordChar c' = false := by
              rw [charIsWordAt_eq s j c' l' hdj] at hj; exact hj
            simp only [wordChar, Bool.or_eq_false_iff] at hwc
            simp [cleanLeftOk, hdj, hwc.1]
  · obtain ⟨t, hd⟩ := matchesAt_decomp w s (i + 1) hmatch
    have hi1 : i + 1 < s.length + 1 := by
      have : i + 1 < s.length := by
        cases w with
        | nil => exact absurd rfl hw
        | cons c0 w' => exact lt_length_of_drop_cons s (i + 1) c0 (w' ++ t) (by simpa using hd)
      omega
    refine ⟨i + 1, hi1, ?_⟩
    simp only [Bool.and_eq_true]
    refine ⟨⟨hmatch, ?_⟩, cleanRight_of_tail w s hw halpha (i + 1) t hd htail⟩
    cases hdi : s.drop i with
    | nil => simp [dashUnderscoreAt, hdi] at hdash
    | cons c0 l0 =>
        have hdu : (c0 == '-' || c0 == '_') = true := by
          rw [dashUnderscoreAt_eq s i c0 l0 hdi] at hdash; exact hdash
        have halnum : c0.isAlphanum = false := by
          have hcd : c0 = '-' ∨ c0 = '_' := by simpa using hdu
          rcases hcd with h | h <;> (subst h; decide)
        simp [cleanLeftOk, hdi, halnum]

/-- A cleanly-bounded occurrence implies a match of the regex
alternation. -/
theorem regex_of_cleanWordMatch (w s : List Char) (hw : w ≠ [])
    (halpha : ∀ c ∈ w, c.isAlpha = true) (h : cleanWordMatch w s = true) :
    regexWordMatch w s = true := by
  simp only [cleanWordMatch, List.any_eq_true, List.mem_range, Bool.and_eq_true] at h
  obtain ⟨i, hi, ⟨hmatch, hleft⟩, hright⟩ := h
  obtain ⟨t, hd⟩ := matchesAt_decomp w s i hmatch
  have htail : tailGroupOk s (i + w.length) = true :=
    tail_of_cleanRight w s hw halpha i t hd hright
  have hc0 : charIsWordAt s i = true := charIsWordAt_head w s hw halpha i t hd
  simp only [regexWordMatch, List.any_eq_true, List.mem_range]
  cases i with
  | zero =>
      refine ⟨0, by omega, ?_⟩
      simp only [armAt, Bool.or_eq_true, Bool.and_eq_true]
      exact Or.inl ⟨⟨by simp [boundaryAt, prevIsWord, hc0], hmatch⟩, htail⟩
  | succ j =>
      cases hdj : s.drop j with
      | nil =>
          have hj : charIsWordAt s j = false := charIsWordAt_none s j hdj
          refine ⟨j + 1, hi, ?_⟩
          simp only [armAt, Bool.or_eq_true, Bool.and_eq_true]
          refine Or.inl ⟨⟨?_, hmatch⟩, htail⟩
          rw [boundaryAt]
          have hp : prevIsWord s (j + 1) = false := hj
          rw [hp, hc0]
          rfl
      | cons c' l' =>
          have halnum : c'.isAlphanum = false := by
            simp only [cleanLeftOk, hdj, Bool.not_eq_true'] at hleft
            exact hleft
          by_cases hdu : (c' == '-' || c' == '_') = true
          · refine ⟨j, by omega, ?_⟩
            simp only [armAt, Bool.or_eq_true, Bool.and_eq_true]
            refine Or.inr ⟨⟨?_, hmatch⟩, htail⟩
            rw [dashUnderscoreAt_eq s j c' l' hdj]
            exact hdu
          · have hwc : wordChar c' = false := by
              simp only [Bool.or_eq_true, not_or, Bool.not_eq_true] at hdu
              simp [wordChar, halnum, hdu.2]
            refine ⟨j + 1, hi, ?_⟩
            simp only [armAt, Bool.or_eq_true, Bool.and_eq_true]
            refine Or.inl ⟨⟨?_, hmatch⟩, htail⟩
            rw [boundaryAt]
            have hp : prevIsWord s (j + 1) = false := by
              show charIsWordAt s j = false
              rw [charIsWordAt_eq s j c' l' hdj]
              exact hwc
            rw [hp, hc0]
            rfl

/-- For a non-empty all-letter word, the regex `(\b|[-_])w(\b|[-_])`
matches exactly the cleanly-bounded occurrences. -/
theorem regexWordMatch_eq_clean (w : List Char) (hw : w ≠ [])
    (halpha : ∀ c ∈ w, c.isAlpha = true) (s : List Char) :
    regexWordMatch w s = cleanWordMatch w s := by
  cases hA : regexWordMatch w s <;> cases hB : cleanWordMatch w s <;> try rfl
  · exact absurd (regex_of_cleanWordMatch w s hw halpha hB) (by simp [hA])
  · exact absurd (cleanWordMatch_of_regex w s hw halpha hA) (by simp [hB])

/-- C3 (corrected): `should_sanitize` returns true exactly when, after
ASCII lowercasing, the key is `authorization`, `cookie`, `set-cookie` or
`password`, or contains an occurrence of `secret`, `key`, `pkey`,
`session` or `password` (no `token`) bounded on each side by the string
edge or a non-alphanumeric character (the regex boundaries are
`(\b|[-_])`, not `(^|[-_])`). -/
theorem C3_should_sanitize_characterization (key : String) :
    should_sanitize key = amendedShouldSanitize key := by
  unfold should_sanitize amendedShouldSanitize
  simp only [sanitizeWords, List.any_cons, List.any_nil]
  rw [regexWordMatch_eq_clean ("secret".data) (by decide) (by decide),
    regexWordMatch_eq_clean ("key".data) (by decide) (by decide),
    regexWordMatch_eq_clean ("pkey".data) (by decide) (by decide),
    regexWordMatch_eq_clean ("session".data) (by decide) (by decide),
    regexWordMatch_eq_clean ("password".data) (by decide) (by decide)]

end Httpclient
